import Mathlib

/-!
Verification of the ranked full-text-search pagination engine of the
dataset-viewer repository (src/services/search/src/search/routes/search.py)
and of the integer cell checker
(src/src/datasets_preview_backend/models/column/int.py).

Embedding conventions, justified line by line against the source:
- The DuckDB `data` table, for one fixed query string, is a `List Row` in
  storage order; a `Row` keeps the `__hf_index_id` column (`id`) and the
  value `fts_main_data.match_bm25(__hf_index_id, query)` (`score`), where
  `none` models SQL NULL (no match).  The bm25 scorer is deterministic for a
  fixed query, so fixing the query turns the score into row data.  Scores are
  modelled as rationals; the code only ever compares scores.
- `FTS_COUNT_COMMAND` (line 50 of search.py) counts the rows of the whole
  table whose score is not NULL: `ftsCount`.
- `FTS_BY_BATCHES_COMMAND` (line 58) selects the rows of one window with
  non-NULL score; SQL `BETWEEN lo AND hi` is inclusive at both ends, which
  the embedding keeps (`chunkQuery`).  A plain scan carries no ORDER BY; the
  embedding returns the rows in table storage order.
- `_search_by_batches` (lines 75 to 96) is `searchByBatches`: the window
  loop `range(0, num_original_rows, FTS_BATCH_SIZE)` is `windowStarts`, the
  accumulation with the early break on `num_matched_rows > offset + length`
  is `chunkLoop`, `pa.concat_tables` is `concatTables` (it fails on an empty
  list of tables, as Arrow ConcatenateTables does), and the final
  `sort_by descending` / `slice(offset, length)` are a stable descending
  sort (Arrow sort indices are stable) followed by drop and take.
- `_search_by_table` (lines 67 to 72) runs `FTS_BY_TABLE_COMMAND` (line 53):
  filter the non-NULL scores, ORDER BY score DESC, OFFSET, LIMIT.  SQL
  leaves the relative order of equal sort keys unspecified, so the query has
  a set of possible results, captured by the relation `directPossible`; the
  function `searchByTable` is the one execution whose ties follow table
  storage order (the same stable sort).
- Column projection (`SELECT * EXCLUDE (__hf_fts_score)` on line 54 and
  `.drop("__hf_fts_score")` on line 95) is modelled on schemas, as the list
  of column names: `byTableSchema` and `byBatchesSchema`.
- `full_text_search` (lines 99 to 117) is `fullTextSearch`: one full-index
  count, then the strategy chosen by the `fts_batches` flag.
- The dispatch of `search_endpoint` (lines 216 to 258) after the cache entry
  is resolved is `searchEndpoint`: the non-OK http status returns a json
  error response, then `content["has_fts"] is not True` raises
  SearchFeatureNotAvailableError before any index file is opened; only the
  remaining branch runs `full_text_search`.  The Python value of `has_fts`
  is modelled as `Option Bool` (`some true` is the Python singleton `True`,
  anything else fails the `is True` identity test).
- `check_value` / `IntColumn.get_cell_value` (int.py lines 14 to 16 and 51
  to 53) act on Python values, modelled by the closed universe `PyValue`
  with the exact-type test `type(value) != int` as `pyTypeOf v ≠ intType`
  (in particular a bool is not an int, since `type(True)` is `bool`).
-/

set_option maxRecDepth 40000

namespace DatasetViewer

/-- Relevance scores (the values of match_bm25) are modelled as rationals;
the code only compares them. -/
abbrev Score := ℚ

/-- One row of the DuckDB data table for a fixed query: the __hf_index_id
column and the match_bm25 score, with none for SQL NULL. -/
structure Row where
  id : Nat
  score : Option Score
deriving DecidableEq

/-- Rows of the table kept by the WHERE __hf_fts_score IS NOT NULL filter. -/
def matchedRows (tbl : List Row) : List Row :=
  tbl.filter (fun r => r.score.isSome)

/-- FTS_COUNT_COMMAND, line 50 of search.py: the number of rows of the whole
table with a non-NULL score. -/
def ftsCount (tbl : List Row) : Nat :=
  (matchedRows tbl).length

/-- Descending-score comparison used by ORDER BY score DESC and by the
pyarrow sort; every sorted row has a some score, so the getD default never
matters. -/
def scoreGE (a b : Row) : Prop :=
  b.score.getD 0 ≤ a.score.getD 0

instance scoreGE.decRel : DecidableRel scoreGE :=
  fun a b => inferInstanceAs (Decidable (b.score.getD 0 ≤ a.score.getD 0))

instance scoreGE.total : IsTotal Row scoreGE :=
  ⟨fun a b => le_total (b.score.getD 0) (a.score.getD 0)⟩

instance scoreGE.trans : IsTrans Row scoreGE :=
  ⟨fun _ _ _ h1 h2 => le_trans h2 h1⟩

/-- pyarrow Table.sort_by with descending __hf_fts_score (line 95); Arrow
sort indices are stable, so the model is a stable sort. -/
def sortByScoreDesc (l : List Row) : List Row :=
  l.insertionSort scoreGE

/-- FTS_BATCH_SIZE, line 60 of search.py. -/
def FTS_BATCH_SIZE : Nat := 1000

/-- FTS_BY_BATCHES_COMMAND, line 58, for one window: rows with
__hf_index_id BETWEEN lo AND hi (inclusive at both ends, as in SQL) and a
non-NULL score, in table storage order. -/
def chunkQuery (tbl : List Row) (lo hi : Nat) : List Row :=
  tbl.filter (fun r => decide (lo ≤ r.id) && (decide (r.id ≤ hi) && r.score.isSome))

/-- The window start indices range(0, num_original_rows, FTS_BATCH_SIZE) of
the loop on line 82. -/
def windowStarts (num : Nat) : List Nat :=
  (List.range ((num + FTS_BATCH_SIZE - 1) / FTS_BATCH_SIZE)).map (· * FTS_BATCH_SIZE)

/-- The loop body of _search_by_batches, lines 82 to 93: query each window,
append the resulting table, and after appending stop as soon as the
accumulated number of matched rows strictly exceeds the bound
offset + length.  cnt is the running num_matched_rows. -/
def chunkLoop (tbl : List Row) (bound : Nat) (cnt : Nat) : List Nat → List (List Row)
  | [] => []
  | lo :: rest =>
    let t := chunkQuery tbl lo (lo + FTS_BATCH_SIZE)
    t :: (if cnt + t.length > bound then [] else chunkLoop tbl bound (cnt + t.length) rest)

/-- pa.concat_tables, line 94: Arrow ConcatenateTables fails with Invalid
when given no table at all. -/
def concatTables : List (List Row) → Except String (List Row)
  | [] => Except.error "Must pass at least one table"
  | ts => Except.ok ts.flatten

/-- The whole of _search_by_batches, lines 75 to 96: run the window loop,
concatenate the accumulated tables, sort by descending score and return
slice(offset, length).  The drop of the score column is modelled at schema
level by byBatchesSchema. -/
def searchByBatches (numOriginalRows : Nat) (tbl : List Row) (offset length : Nat) :
    Except String (List Row) :=
  match concatTables (chunkLoop tbl (offset + length) 0 (windowStarts numOriginalRows)) with
  | Except.error e => Except.error e
  | Except.ok rows => Except.ok (((sortByScoreDesc rows).drop offset).take length)

/-- The execution of FTS_BY_TABLE_COMMAND by _search_by_table, lines 67 to
72, resolved deterministically: the stable sort makes equal scores follow
table storage order, one of the executions SQL allows (directPossible below
is the full relation). -/
def searchByTable (tbl : List Row) (offset length : Nat) : List Row :=
  ((sortByScoreDesc (matchedRows tbl)).drop offset).take length

/-- full_text_search, lines 99 to 117: the count is obtained by the single
full-index count query before the strategy runs, and the strategy is chosen
by the fts_batches flag. -/
def fullTextSearch (numOriginalRows : Nat) (ftsBatches : Bool) (tbl : List Row)
    (offset length : Nat) : Nat × Except String (List Row) :=
  (ftsCount tbl,
    if ftsBatches then searchByBatches numOriginalRows tbl offset length
    else Except.ok (searchByTable tbl offset length))

/-- The generated score column name. -/
def SCORE_COLUMN : String := "__hf_fts_score"

/-- Schema of the inner subquery SELECT *, match_bm25(...) AS
__hf_fts_score (lines 54 and 58): the base columns plus the score column. -/
def subquerySchema (cols : List String) : List String :=
  cols ++ [SCORE_COLUMN]

/-- Schema produced by SELECT * EXCLUDE (__hf_fts_score) in
FTS_BY_TABLE_COMMAND, line 54. -/
def byTableSchema (cols : List String) : List String :=
  (subquerySchema cols).filter (fun c => c ≠ SCORE_COLUMN)

/-- Schema after Table.drop of the score column in _search_by_batches,
line 95. -/
def byBatchesSchema (cols : List String) : List String :=
  (subquerySchema cols).filter (fun c => c ≠ SCORE_COLUMN)

/-- The fields of the resolved duckdb index cache entry that the dispatch of
search_endpoint reads, lines 216 to 230 of search.py.  hasFts is the Python
value content["has_fts"]: some true is the singleton True, some false is
False, none is any non-boolean value; only some true passes the Python
identity test `is True`. -/
structure IndexCacheEntry where
  httpStatus : Nat
  hasFts : Option Bool

/-- What the endpoint does with a request once the cache entry is resolved:
an error response carrying the cache http status, the
SearchFeatureNotAvailableError raise, or a run of full_text_search. -/
inductive EndpointResult where
  | errorResponse (status : Nat)
  | searchFeatureNotAvailable
  | search (numRowsTotal : Nat) (page : Except String (List Row))

/-- HTTPStatus.OK. -/
def HTTP_OK : Nat := 200

/-- The dispatch of search_endpoint, lines 216 to 258: a non-OK cache entry
returns a json error response; then has_fts is tested against True and the
endpoint raises SearchFeatureNotAvailableError before the index file is
downloaded or opened; only otherwise does full_text_search run. -/
def searchEndpoint (entry : IndexCacheEntry) (numOriginalRows : Nat) (ftsBatches : Bool)
    (tbl : List Row) (offset length : Nat) : EndpointResult :=
  if entry.httpStatus ≠ HTTP_OK then EndpointResult.errorResponse entry.httpStatus
  else if entry.hasFts ≠ some true then EndpointResult.searchFeatureNotAvailable
  else
    let r := fullTextSearch numOriginalRows ftsBatches tbl offset length
    EndpointResult.search r.1 r.2

/-- Closed universe of the Python values relevant to IntColumn cells: None,
exact ints, bools (a distinct exact type in Python even though bool
subclasses int), floats and strings. -/
inductive PyValue where
  | none
  | int (n : Int)
  | bool (b : Bool)
  | float (x : ℚ)
  | str (s : String)
deriving DecidableEq

/-- The exact Python runtime type of a value, as type(value) computes it. -/
inductive PyType where
  | noneType
  | intType
  | boolType
  | floatType
  | strType
deriving DecidableEq

/-- type(value) on the modelled universe: type(True) is bool, not int. -/
def pyTypeOf : PyValue → PyType
  | PyValue.none => PyType.noneType
  | PyValue.int _ => PyType.intType
  | PyValue.bool _ => PyType.boolType
  | PyValue.float _ => PyType.floatType
  | PyValue.str _ => PyType.strType

/-- The one error check_value can raise. -/
inductive CellError where
  | cellTypeError
deriving DecidableEq

/-- check_value, int.py lines 14 to 16: raise CellTypeError when the value
is not None and its exact type is not int. -/
def check_value (v : PyValue) : Except CellError Unit :=
  if v ≠ PyValue.none ∧ pyTypeOf v ≠ PyType.intType then Except.error CellError.cellTypeError
  else Except.ok ()

/-- IntColumn.get_cell_value, int.py lines 51 to 53: run check_value, then
return the value unchanged. -/
def get_cell_value (v : PyValue) : Except CellError PyValue :=
  match check_value v with
  | Except.error e => Except.error e
  | Except.ok _ => Except.ok v

/-- Sorted in non-increasing score order. -/
def SortedDesc (l : List Row) : Prop :=
  l.Sorted scoreGE

/-- The set of results SQL allows for FTS_BY_TABLE_COMMAND, line 53: some
permutation of the matching rows sorted by descending score (the relative
order of equal scores is unspecified by ORDER BY), then OFFSET and LIMIT. -/
def directPossible (tbl : List Row) (offset length : Nat) (res : List Row) : Prop :=
  ∃ l, l.Perm (matchedRows tbl) ∧ SortedDesc l ∧ res = (l.drop offset).take length

/-- The tie-break property the spec asks for: any two equal-score rows of
the output appear in ascending row-index order. -/
def tiesAscending (l : List Row) : Prop :=
  l.Pairwise (fun a b => a.score = b.score → a.id < b.id)

instance SortedDesc.dec (l : List Row) : Decidable (SortedDesc l) :=
  List.decidableSorted l

instance tiesAscending.dec (l : List Row) : Decidable (tiesAscending l) :=
  @List.decidableSorted Row (fun a b => a.score = b.score → a.id < b.id)
    (fun _ _ => inferInstanceAs (Decidable (_ → _))) l

instance exceptDecEq {ε α : Type _} [DecidableEq ε] [DecidableEq α] :
    DecidableEq (Except ε α) := fun a b =>
  match a, b with
  | Except.error e, Except.error f => decidable_of_iff (e = f) (by simp)
  | Except.error _, Except.ok _ => isFalse (fun h => Except.noConfusion h)
  | Except.ok _, Except.error _ => isFalse (fun h => Except.noConfusion h)
  | Except.ok a, Except.ok b => decidable_of_iff (a = b) (by simp)

/-- Per-window matched-row counts, in window order. -/
def chunkCounts (tbl : List Row) (starts : List Nat) : List Nat :=
  starts.map (fun lo => (chunkQuery tbl lo (lo + FTS_BATCH_SIZE)).length)

/-- Running totals of a list of counts, starting from cnt: the value of
num_matched_rows after each window. -/
def cumFrom (cnt : Nat) : List Nat → List Nat
  | [] => []
  | a :: rest => (cnt + a) :: cumFrom (cnt + a) rest

/-- Number of windows the loop visits, stated the way the spec states the
stop rule: every window whose running total stays at or below the bound is
followed by one more, the window at which the total first strictly exceeds
the bound (if the list runs out first, the take below just takes all). -/
def stopLen (bound : Nat) (cums : List Nat) : Nat :=
  (cums.takeWhile (fun c => decide (c ≤ bound))).length + 1

/-- The window starts the loop actually queries, in ascending order. -/
def visitedStarts (tbl : List Row) (bound num : Nat) : List Nat :=
  (windowStarts num).take (stopLen bound (cumFrom 0 (chunkCounts tbl (windowStarts num))))

/-- The score 9.1 of the end-to-end example of the spec. -/
def q91 : Score := ⟨91, 10, by decide, by decide⟩

/-- The score 8.7 of the end-to-end example of the spec. -/
def q87 : Score := ⟨87, 10, by decide, by decide⟩

/-- The score 9.5 of the end-to-end example of the spec (19/2 in lowest
terms). -/
def q95 : Score := ⟨19, 2, by decide, by decide⟩

/-- Scores of the end-to-end example of the spec: the query matches rows 50
(9.1), 1200 (8.7), 2100 (9.5) and 900 (9.5) of a 2500-row index. -/
def scoreC4 (i : Nat) : Option Score :=
  if i = 50 then some q91
  else if i = 1200 then some q87
  else if i = 2100 then some q95
  else if i = 900 then some q95
  else none

/-- The 2500-row data table of the end-to-end example, ids 0 to 2499 in
storage order. -/
def tblC4 : List Row :=
  (List.range 2500).map (fun i => ⟨i, scoreC4 i⟩)

/-- A 1002-row table whose first window holds three low-scoring matches
(rows 10, 20, 30) while the top-scoring match sits in the second window
(row 1001, score 100). -/
def scoreC1 (i : Nat) : Option Score :=
  if i = 10 then some 1
  else if i = 20 then some 2
  else if i = 30 then some 3
  else if i = 1001 then some 100
  else none

/-- The 1002-row data table built from scoreC1, ids 0 to 1001 in storage
order. -/
def tblC1 : List Row :=
  (List.range 1002).map (fun i => ⟨i, scoreC1 i⟩)

/-- A 1001-row table whose only match sits at row index 1000, the row index
shared by the inclusive windows BETWEEN 0 AND 1000 and BETWEEN 1000 AND
2000. -/
def tblC5 : List Row :=
  (List.range 1001).map (fun i => ⟨i, if i = 1000 then some 1 else none⟩)

/-- Two rows with equal score 1 and row indices 0 and 1. -/
def rowA : Row := ⟨0, some 1⟩

/-- See rowA. -/
def rowB : Row := ⟨1, some 1⟩

/-- A two-row table whose two rows tie on score. -/
def tblC7 : List Row := [rowA, rowB]

/-- A slice of a descending-sorted list is descending-sorted. -/
theorem sortedDesc_slice {l : List Row} (h : SortedDesc l) (a b : Nat) :
    SortedDesc ((l.drop a).take b) :=
  List.Pairwise.sublist ((List.take_sublist _ _).trans (List.drop_sublist _ _)) h

/-- The window loop queries exactly the windows up to and including the
first one at which the running matched-row count strictly exceeds the
bound, and returns their chunk tables in window order. -/
theorem chunkLoop_eq (tbl : List Row) (bound : Nat) :
    ∀ (starts : List Nat) (cnt : Nat),
      chunkLoop tbl bound cnt starts =
        (starts.take (stopLen bound (cumFrom cnt (chunkCounts tbl starts)))).map
          (fun lo => chunkQuery tbl lo (lo + FTS_BATCH_SIZE)) := by
  intro starts
  induction starts with
  | nil => intro cnt; simp [chunkLoop, chunkCounts, cumFrom]
  | cons lo rest ih =>
    intro cnt
    by_cases h : cnt + (chunkQuery tbl lo (lo + FTS_BATCH_SIZE)).length > bound
    · have hb : ¬ (cnt + (chunkQuery tbl lo (lo + FTS_BATCH_SIZE)).length ≤ bound) := by omega
      simp [chunkLoop, h, chunkCounts, cumFrom, stopLen, List.takeWhile_cons, hb]
    · have hb : cnt + (chunkQuery tbl lo (lo + FTS_BATCH_SIZE)).length ≤ bound := by omega
      simp [chunkLoop, h, chunkCounts, cumFrom, stopLen, List.takeWhile_cons, hb, ih]

/-- A positive row count gives at least one window start. -/
theorem windowStarts_ne_nil (num : Nat) (h : 0 < num) : windowStarts num ≠ [] := by
  unfold windowStarts FTS_BATCH_SIZE
  simp only [ne_eq, List.map_eq_nil_iff, List.range_eq_nil]
  omega

/-- C2: for every query and index the first component returned by
full_text_search is the exact number of rows of the whole table with a
non-null score, and it is the same for both strategies, since the single
count query runs before and independently of the strategy dispatch. -/
theorem fullTextSearch_count_exact (num : Nat) (strat : Bool) (tbl : List Row)
    (off len : Nat) :
    (fullTextSearch num strat tbl off len).1 = tbl.countP (fun r => r.score.isSome) ∧
    (fullTextSearch num true tbl off len).1 = (fullTextSearch num false tbl off len).1 :=
  ⟨by simp [fullTextSearch, ftsCount, matchedRows, List.countP_eq_length_filter], rfl⟩

/-- C1 amended: the direct strategy returns a page of the form the claim
asks for, namely the slice [offset, offset + length) of a descending-score
ordering of all matching rows, with the expected clamped page length.  The
chunked strategy does not always return the same page; see the
counterexample chunked_misses_late_window. -/
theorem searchByTable_ranked_page (tbl : List Row) (off len : Nat) :
    directPossible tbl off len (searchByTable tbl off len) ∧
    (searchByTable tbl off len).length = min len (ftsCount tbl - off) := by
  constructor
  · exact ⟨sortByScoreDesc (matchedRows tbl), List.perm_insertionSort _ _,
      List.sorted_insertionSort _ _, rfl⟩
  · simp [searchByTable, ftsCount, sortByScoreDesc,
      (List.perm_insertionSort scoreGE (matchedRows tbl)).length_eq]

/-- C1 counterexample: on a 1002-row index whose first window holds three
low-scoring matches, the loop stops after the first window (3 > 0 + 2), so
the top match at row 1001 is never scanned and the chunked page differs
from the direct page on the same data. -/
theorem chunked_misses_late_window :
    searchByBatches 1002 tblC1 0 2 = Except.ok [⟨30, some 3⟩, ⟨20, some 2⟩] ∧
    searchByTable tblC1 0 2 = [⟨1001, some 100⟩, ⟨30, some 3⟩] ∧
    searchByBatches 1002 tblC1 0 2 ≠ Except.ok (searchByTable tblC1 0 2) :=
  ⟨by decide, by decide, by decide⟩

/-- C3: the loop scans the strictly ascending window starts, queries
exactly the windows up to and including the first whose running matched-row
count strictly exceeds offset + length (or all of them), and only then
concatenates everything accumulated, sorts it by descending score and takes
the slice [offset, offset + length) of the sorted whole. -/
theorem searchByBatches_scan_sort_slice (num : Nat) (tbl : List Row)
    (off len : Nat) (h : 0 < num) :
    List.Pairwise (· < ·) (windowStarts num) ∧
    searchByBatches num tbl off len =
      Except.ok (((sortByScoreDesc (((visitedStarts tbl (off + len) num).map
        (fun lo => chunkQuery tbl lo (lo + FTS_BATCH_SIZE))).flatten)).drop off).take len) := by
  constructor
  · unfold windowStarts
    exact List.Pairwise.map _
      (fun a b hab => by simp only [FTS_BATCH_SIZE]; omega)
      (List.pairwise_lt_range _)
  · have hloop : chunkLoop tbl (off + len) 0 (windowStarts num) =
        (visitedStarts tbl (off + len) num).map
          (fun lo => chunkQuery tbl lo (lo + FTS_BATCH_SIZE)) :=
      chunkLoop_eq tbl (off + len) (windowStarts num) 0
    have hne : visitedStarts tbl (off + len) num ≠ [] := by
      unfold visitedStarts
      intro hnil
      rcases List.take_eq_nil_iff.mp hnil with h0 | h0
      · simp [stopLen] at h0
      · exact windowStarts_ne_nil num h h0
    obtain ⟨a, as, hv⟩ : ∃ a as, visitedStarts tbl (off + len) num = a :: as := by
      cases hvv : visitedStarts tbl (off + len) num with
      | nil => exact absurd hvv hne
      | cons a as => exact ⟨a, as, rfl⟩
    unfold searchByBatches
    rw [hloop, hv]
    simp [concatTables]

/-- Instantiation of searchByBatches_scan_sort_slice on a one-row index. -/
theorem searchByBatches_scan_sort_slice_witness :
    List.Pairwise (· < ·) (windowStarts 1) ∧
    searchByBatches 1 [(⟨0, some 1⟩ : Row)] 0 1 =
      Except.ok (((sortByScoreDesc (((visitedStarts [(⟨0, some 1⟩ : Row)] (0 + 1) 1).map
        (fun lo => chunkQuery [(⟨0, some 1⟩ : Row)] lo (lo + FTS_BATCH_SIZE))).flatten)).drop 0).take 1) :=
  searchByBatches_scan_sort_slice 1 [⟨0, some 1⟩] 0 1 (by decide)

/-- C4 amended: on the end-to-end example of the spec (2500 rows, matches
at 50 with 9.1, 1200 with 8.7, 2100 with 9.5, 900 with 9.5, offset 0,
length 2) the chunked strategy returns rows 900 (score 9.5) and 50 (score
9.1): after the window BETWEEN 1000 AND 2000 the accumulated count is
3 > 2, so the loop stops and row 2100 is never scanned. -/
theorem chunked_example_page :
    searchByBatches 2500 tblC4 0 2 = Except.ok [⟨900, some q95⟩, ⟨50, some q91⟩] := by
  decide

/-- C4 counterexample: the chunked strategy does not return the page
[row 900, row 2100] the spec example asks for. -/
theorem chunked_example_not_ideal_page :
    searchByBatches 2500 tblC4 0 2 ≠ Except.ok [⟨900, some q95⟩, ⟨2100, some q95⟩] := by
  decide

/-- C5: the inclusive windows BETWEEN 0 AND 1000 and BETWEEN 1000 AND 2000
overlap at row index 1000, so a matched row there is returned by two window
queries, accumulated twice, and can appear twice in the returned page. -/
theorem boundary_row_queried_twice :
    chunkQuery tblC5 0 (0 + FTS_BATCH_SIZE) = [⟨1000, some 1⟩] ∧
    chunkQuery tblC5 1000 (1000 + FTS_BATCH_SIZE) = [⟨1000, some 1⟩] ∧
    searchByBatches 1001 tblC5 0 5 = Except.ok [⟨1000, some 1⟩, ⟨1000, some 1⟩] :=
  ⟨by decide, by decide, by decide⟩

/-- C6: with num_original_rows = 0 the loop issues no window query, and
pa.concat_tables is then applied to an empty list of tables, which fails
instead of returning an empty result. -/
theorem batches_empty_index_errors (tbl : List Row) (off len : Nat) :
    windowStarts 0 = [] ∧
    searchByBatches 0 tbl off len = Except.error "Must pass at least one table" :=
  ⟨rfl, rfl⟩

/-- C7 counterexample: on a table with two rows of equal score, both
orders of the tied pair are possible results of the ORDER BY score DESC
query, and the one with descending row indices violates the ascending
tie-break the claim asserts; the two possible outputs also differ, so
repeated runs need not agree. -/
theorem direct_tie_order_unconstrained :
    directPossible tblC7 0 2 [rowB, rowA] ∧
    directPossible tblC7 0 2 [rowA, rowB] ∧
    ¬ tiesAscending [rowB, rowA] ∧
    ([rowB, rowA] : List Row) ≠ [rowA, rowB] :=
  ⟨⟨[rowB, rowA], by decide, by decide, rfl⟩,
    ⟨[rowA, rowB], by decide, by decide, rfl⟩, by decide, by decide⟩

/-- C7 amended: every page either strategy can return is sorted by
non-increasing score, but the code imposes no tie-break on equal scores:
the relative order of equal-score rows (and hence reproducibility across
runs) is unconstrained; see direct_tie_order_unconstrained. -/
theorem search_results_sorted_by_score (tbl : List Row) (off len : Nat) :
    (∀ res, directPossible tbl off len res → SortedDesc res) ∧
    (∀ num r, searchByBatches num tbl off len = Except.ok r → SortedDesc r) := by
  constructor
  · rintro res ⟨l, _, hs, rfl⟩
    exact sortedDesc_slice hs off len
  · intro num r hr
    unfold searchByBatches at hr
    cases hc : concatTables (chunkLoop tbl (off + len) 0 (windowStarts num)) with
    | error e =>
      rw [hc] at hr
      exact Except.noConfusion hr
    | ok rows =>
      rw [hc] at hr
      change Except.ok (((sortByScoreDesc rows).drop off).take len) = Except.ok r at hr
      injection hr with hr2
      subst hr2
      exact sortedDesc_slice (List.sorted_insertionSort _ _) off len

/-- Instantiation of search_results_sorted_by_score on concrete pages of
both strategies. -/
theorem search_results_sorted_by_score_witness :
    SortedDesc [(⟨1, some 2⟩ : Row), ⟨0, some 1⟩] ∧ SortedDesc [(⟨0, some 2⟩ : Row)] :=
  ⟨(search_results_sorted_by_score [⟨0, some 1⟩, ⟨1, some 2⟩] 0 2).1
      [⟨1, some 2⟩, ⟨0, some 1⟩]
      ⟨[⟨1, some 2⟩, ⟨0, some 1⟩], by decide, by decide, rfl⟩,
    (search_results_sorted_by_score [⟨0, some 2⟩] 0 1).2 1 [⟨0, some 2⟩] (by decide)⟩

/-- C8: once the cache entry is resolved with an OK status, any has_fts
value other than the Python True makes the endpoint raise
SearchFeatureNotAvailableError; the result carries no search output, so no
index is opened and no query runs. -/
theorem endpoint_refuses_without_fts (entry : IndexCacheEntry) (num : Nat) (strat : Bool)
    (tbl : List Row) (off len : Nat) (hok : entry.httpStatus = HTTP_OK)
    (hfts : entry.hasFts ≠ some true) :
    searchEndpoint entry num strat tbl off len = EndpointResult.searchFeatureNotAvailable := by
  simp [searchEndpoint, hok, hfts]

/-- Instantiation of endpoint_refuses_without_fts at has_fts = False. -/
theorem endpoint_refuses_without_fts_witness :
    searchEndpoint ⟨200, some false⟩ 0 false [] 0 10 = EndpointResult.searchFeatureNotAvailable :=
  endpoint_refuses_without_fts ⟨200, some false⟩ 0 false [] 0 10 rfl (by decide)

/-- C9: neither result schema contains the internal score column: the
direct strategy excludes it in its projection and the chunked strategy
drops it after sorting. -/
theorem no_score_column_in_result_schemas (cols : List String) :
    SCORE_COLUMN ∉ byTableSchema cols ∧ SCORE_COLUMN ∉ byBatchesSchema cols := by
  constructor <;>
  · intro hmem
    have h2 := (List.mem_filter.mp hmem).2
    simp at h2

/-- C10: get_cell_value returns its argument unchanged exactly when the
value is None or of exact type int, and raises CellTypeError on every
other value (bools and floats included); no other outcome is possible. -/
theorem get_cell_value_exact_int_or_none (v : PyValue) :
    (get_cell_value v = Except.ok v ∨
      get_cell_value v = Except.error CellError.cellTypeError) ∧
    get_cell_value v =
      (if v = PyValue.none ∨ pyTypeOf v = PyType.intType then Except.ok v
        else Except.error CellError.cellTypeError) := by
  have h2 : get_cell_value v =
      (if v = PyValue.none ∨ pyTypeOf v = PyType.intType then Except.ok v
        else Except.error CellError.cellTypeError) := by
    by_cases h : v = PyValue.none ∨ pyTypeOf v = PyType.intType
    · have hc : ¬(v ≠ PyValue.none ∧ pyTypeOf v ≠ PyType.intType) := by tauto
      simp [get_cell_value, check_value, hc, h]
    · have hc : v ≠ PyValue.none ∧ pyTypeOf v ≠ PyType.intType := by tauto
      simp [get_cell_value, check_value, hc, h]
  refine ⟨?_, h2⟩
  rw [h2]
  by_cases h : v = PyValue.none ∨ pyTypeOf v = PyType.intType
  · exact Or.inl (by simp [h])
  · exact Or.inr (by simp [h])

end DatasetViewer
